import Mathlib

/-!
Verification of the repricah/scryfall Go client (src/client.go, src/models.go,
src/interface.go) against its natural-language specification.

The development is a shallow embedding of the code:

* Go `error` values are modelled by the inductive `GoError`.  `fmt.Errorf`
  with a trailing `": %w"` verb becomes `GoError.errorf msg (some wrapped)`;
  `fmt.Errorf` without `%w` becomes `GoError.errorf msg none`.  The rendered
  error message (Go's `Error()` string) is computed by `errMsg`.
* The `encoding/json` standard-library decoder is external to the repository
  and is modelled at its interface boundary: the input byte stream is
  abstracted as the stream of JSON tokens the decoder's tokenizer yields
  (`DecState`, a token list plus an optional tokenizer failure that occurs
  once the listed tokens are exhausted).  `Decoder.Token`, `Decoder.More` and
  `Decoder.Decode` become `DecState.token`, `DecState.more` and `decodeCard`.
  JSON numbers are modelled as exact rationals (the claims under scrutiny
  never depend on float rounding).
* The HTTP transport, the rate limiter and the filesystem are external
  collaborators; each operation takes an explicit oracle describing the
  outcome of the corresponding external call (`Transport`, `GetTransport`,
  response bodies as `Body`), exactly mirroring the branch structure of the
  Go code that consumes them.

All definitions are executable; every claim theorem is stated about these
definitions.
-/

namespace Scryfall

/-- `APIError` from src/client.go: an error returned by the Scryfall API.
`Type` is not a legal Lean field name, so the Go field `Type` is `Type'`. -/
structure APIError where
  StatusCode : Nat
  Details : String
  Type' : String
  Warnings : List String
deriving Repr, DecidableEq

/-- `(*APIError).Error` from src/client.go (the non-nil receiver cases). -/
def APIError.Error (e : APIError) : String :=
  if e.Details ≠ "" then
    "scryfall api error (" ++ toString e.StatusCode ++ "): " ++ e.Details
  else
    "scryfall api error (" ++ toString e.StatusCode ++ ")"

/-- Model of Go `error` values as produced and consumed by this package.
`errorf msg w` models `fmt.Errorf`: `w = some e` when the format string ends
in `": %w"` (wrapping), `none` otherwise.  `eof`, `unexpectedEOF` and
`synErr` model the sentinel and syntax errors of `io`/`encoding/json`.
`typeErr` models `encoding/json` unmarshal type errors.  `external` models
an arbitrary caller-supplied error (e.g. one returned by a record callback).
`api` models a decoded `*APIError` returned as a Go error. -/
inductive GoError where
  | eof
  | unexpectedEOF
  | synErr (msg : String)
  | typeErr (msg : String)
  | external (msg : String)
  | api (e : APIError)
  | errorf (msg : String) (wrapped : Option GoError)
deriving Repr

/-- The rendered message of a `GoError` (Go's `Error()` string; `%w` renders
the wrapped error's message after the format prefix). -/
def errMsg : GoError → String
  | .eof => "EOF"
  | .unexpectedEOF => "unexpected EOF"
  | .synErr m => m
  | .typeErr m => m
  | .external m => m
  | .api e => e.Error
  | .errorf m none => m
  | .errorf m (some w) => m ++ ": " ++ errMsg w

/-- One token of the `encoding/json` tokenizer (`json.Token`): the four
delimiters, or a scalar value.  Numbers are modelled as exact rationals. -/
inductive JToken where
  | arrayOpen
  | arrayClose
  | objOpen
  | objClose
  | str (s : String)
  | num (q : Rat)
  | bool (b : Bool)
  | null
deriving Repr, DecidableEq

/-- A JSON value, as assembled from the token stream by `Decoder.Decode`. -/
inductive JValue where
  | null
  | bool (b : Bool)
  | num (q : Rat)
  | str (s : String)
  | arr (elems : List JValue)
  | obj (fields : List (String × JValue))
deriving Repr

/-- The interface-level state of a `json.Decoder` reading from a byte
stream: the tokens still to be delivered, and `bad` — the error the
tokenizer reports once `toks` is exhausted (`none` means the stream ends
cleanly, so further reads yield `io.EOF`; `some e` means the remaining bytes
are malformed or the underlying reader fails, so further reads yield `e`). -/
structure DecState where
  toks : List JToken
  bad : Option GoError
deriving Repr

/-- `Decoder.Token`: deliver the next token, or the stream's failure. -/
def DecState.token : DecState → Except GoError (JToken × DecState)
  | ⟨[], bad⟩ => .error (bad.getD .eof)
  | ⟨t :: rest, bad⟩ => .ok (t, ⟨rest, bad⟩)

/-- `Decoder.More`: whether the next element in the current array or object
context exists — i.e. the next byte is neither `]` nor `}` nor clean EOF.
(When the remaining bytes are malformed, `More` sees a byte that is not a
closing delimiter and reports `true`; the subsequent decode then fails.) -/
def DecState.more : DecState → Bool
  | ⟨[], bad⟩ => bad.isSome
  | ⟨.arrayClose :: _, _⟩ => false
  | ⟨.objClose :: _, _⟩ => false
  | ⟨_ :: _, _⟩ => true

/-- Internal mode of the JSON value parser: parsing a whole value, the
remaining elements of an array (accumulator held), or the remaining fields
of an object. -/
inductive PMode where
  | value
  | inArr (acc : List JValue)
  | inObj (acc : List (String × JValue))

/-- The value parser of `Decoder.Decode`, reading one complete JSON value
from the token stream.  `fuel` bounds recursion depth; callers pass the
length of the remaining token list, which always suffices (each recursive
call consumes at least one token first, and a value nested in an array or
object is always followed by at least its closing delimiter).  Running out
of tokens mid-value yields the stream's failure (`bad`), or
`unexpectedEOF` on a cleanly truncated stream — matching
`json.Decoder.Decode` on truncated input. -/
def parseV : Nat → PMode → DecState → Except GoError (JValue × DecState)
  | 0, _, st => .error (st.bad.getD .unexpectedEOF)
  | fuel + 1, .value, st =>
    match st.toks with
    | [] => .error (st.bad.getD .unexpectedEOF)
    | .arrayOpen :: rest => parseV fuel (.inArr []) ⟨rest, st.bad⟩
    | .objOpen :: rest => parseV fuel (.inObj []) ⟨rest, st.bad⟩
    | .arrayClose :: _ => .error (.synErr "unexpected array close")
    | .objClose :: _ => .error (.synErr "unexpected object close")
    | .null :: rest => .ok (.null, ⟨rest, st.bad⟩)
    | .bool b :: rest => .ok (.bool b, ⟨rest, st.bad⟩)
    | .num q :: rest => .ok (.num q, ⟨rest, st.bad⟩)
    | .str s :: rest => .ok (.str s, ⟨rest, st.bad⟩)
  | fuel + 1, .inArr acc, st =>
    match st.toks with
    | [] => .error (st.bad.getD .unexpectedEOF)
    | t :: rest =>
      if t = JToken.arrayClose then .ok (.arr acc, ⟨rest, st.bad⟩)
      else do
        let (v, st1) ← parseV fuel .value ⟨t :: rest, st.bad⟩
        parseV fuel (.inArr (acc ++ [v])) st1
  | fuel + 1, .inObj acc, st =>
    match st.toks with
    | [] => .error (st.bad.getD .unexpectedEOF)
    | .objClose :: rest => .ok (.obj acc, ⟨rest, st.bad⟩)
    | .str s :: rest => do
      let (v, st1) ← parseV fuel .value ⟨rest, st.bad⟩
      parseV fuel (.inObj (acc ++ [(s, v)])) st1
    | _ :: _ => .error (.synErr "object key must be a string")

/-- Parse one complete JSON value from the stream (entry point used by
`decodeCard`; the fuel is the remaining token count, which suffices). -/
def parseValue (st : DecState) : Except GoError (JValue × DecState) :=
  parseV st.toks.length .value st

mutual

/-- The token stream a well-formed JSON value presents to the tokenizer.
Used to describe well-formed input streams in the claim theorems. -/
def toTokens : JValue → List JToken
  | .null => [.null]
  | .bool b => [.bool b]
  | .num q => [.num q]
  | .str s => [.str s]
  | .arr xs => .arrayOpen :: toTokensList xs ++ [.arrayClose]
  | .obj fs => .objOpen :: toTokensFields fs ++ [.objClose]

/-- Token stream of consecutive array elements. -/
def toTokensList : List JValue → List JToken
  | [] => []
  | v :: vs => toTokens v ++ toTokensList vs

/-- Token stream of consecutive object fields (key token, then value). -/
def toTokensFields : List (String × JValue) → List JToken
  | [] => []
  | (k, v) :: fs => .str k :: (toTokens v ++ toTokensFields fs)

end

theorem toTokens_length_pos (v : JValue) : 0 < (toTokens v).length := by
  cases v <;> simp [toTokens]

/-- Every serialized value starts with a token that is not a closing
delimiter (so `More` is true in front of it and the array-element parser
takes its value branch). -/
theorem toTokens_head (v : JValue) :
    ∃ t ts, toTokens v = t :: ts ∧ t ≠ JToken.arrayClose ∧ t ≠ JToken.objClose := by
  cases v <;> exact ⟨_, _, rfl, by simp, by simp⟩

theorem more_toTokens (v : JValue) (rest : List JToken) (bad : Option GoError) :
    DecState.more ⟨toTokens v ++ rest, bad⟩ = true := by
  cases v <;> simp [toTokens, DecState.more]

/-- Round-trip of the value parser over serialized values, stated for all
three parser modes at once and proved by induction on the fuel. -/
theorem parseV_roundtrip :
    ∀ fuel : Nat,
      (∀ (v : JValue) (rest : List JToken) (bad : Option GoError),
        (toTokens v).length ≤ fuel →
        parseV fuel .value ⟨toTokens v ++ rest, bad⟩ = .ok (v, ⟨rest, bad⟩)) ∧
      (∀ (xs acc : List JValue) (rest : List JToken) (bad : Option GoError),
        (toTokensList xs).length + 1 ≤ fuel →
        parseV fuel (.inArr acc) ⟨toTokensList xs ++ .arrayClose :: rest, bad⟩ =
          .ok (.arr (acc ++ xs), ⟨rest, bad⟩)) ∧
      (∀ (fs : List (String × JValue)) (acc : List (String × JValue))
          (rest : List JToken) (bad : Option GoError),
        (toTokensFields fs).length + 1 ≤ fuel →
        parseV fuel (.inObj acc) ⟨toTokensFields fs ++ .objClose :: rest, bad⟩ =
          .ok (.obj (acc ++ fs), ⟨rest, bad⟩)) := by
  intro fuel
  induction fuel with
  | zero =>
    refine ⟨fun v rest bad h => ?_, fun xs acc rest bad h => ?_, fun fs acc rest bad h => ?_⟩
    · exact absurd (Nat.lt_of_lt_of_le (toTokens_length_pos v) h) (by omega)
    · omega
    · omega
  | succ f ih =>
    obtain ⟨ihV, ihA, ihO⟩ := ih
    refine ⟨fun v rest bad h => ?_, fun xs acc rest bad h => ?_, fun fs acc rest bad h => ?_⟩
    · cases v with
      | null => simp [toTokens, parseV]
      | bool b => simp [toTokens, parseV]
      | num q => simp [toTokens, parseV]
      | str s => simp [toTokens, parseV]
      | arr xs =>
        have hlen : (toTokensList xs).length + 1 ≤ f := by
          simp [toTokens] at h; omega
        simp only [toTokens, List.cons_append, List.append_assoc, List.singleton_append]
        simp only [parseV]
        exact ihA xs [] rest bad hlen
      | obj fs =>
        have hlen : (toTokensFields fs).length + 1 ≤ f := by
          simp [toTokens] at h; omega
        simp only [toTokens, List.cons_append, List.append_assoc, List.singleton_append]
        simp only [parseV]
        exact ihO fs [] rest bad hlen
    · cases xs with
      | nil => simp [toTokensList, parseV]
      | cons x xs =>
        have hx : (toTokens x).length ≤ f := by
          simp [toTokensList] at h; omega
        have hxs : (toTokensList xs).length + 1 ≤ f := by
          have := toTokens_length_pos x
          simp [toTokensList] at h; omega
        obtain ⟨t, ts, hts, h1, h2⟩ := toTokens_head x
        have hv := ihV x (toTokensList xs ++ .arrayClose :: rest) bad hx
        have hrec := ihA xs (acc ++ [x]) rest bad hxs
        simp only [toTokensList, List.append_assoc]
        rw [hts] at hv ⊢
        simp only [List.cons_append, List.append_assoc] at hv ⊢
        simp only [parseV]
        rw [if_neg h1, hv]
        simpa [bind, Except.bind, List.append_assoc] using hrec
    · cases fs with
      | nil => simp [toTokensFields, parseV]
      | cons kv fs =>
        obtain ⟨k, v⟩ := kv
        have hx : (toTokens v).length ≤ f := by
          simp [toTokensFields] at h; omega
        have hfs : (toTokensFields fs).length + 1 ≤ f := by
          have := toTokens_length_pos v
          simp [toTokensFields] at h; omega
        have hv := ihV v (toTokensFields fs ++ .objClose :: rest) bad hx
        simp only [toTokensFields, List.cons_append, List.append_assoc] at hv ⊢
        simp only [parseV]
        rw [hv]
        simpa [bind, Except.bind, List.append_assoc] using ihO fs (acc ++ [(k, v)]) rest bad hfs

/-- Success of the value parser consumes at least one token (used to show
the top-level record loop terminates within its token budget). -/
theorem parseV_length :
    ∀ (fuel : Nat) (mode : PMode) (st : DecState) (v : JValue) (st1 : DecState),
      parseV fuel mode st = .ok (v, st1) → st1.toks.length < st.toks.length := by
  intro fuel
  induction fuel with
  | zero => intro mode st v st1 h; simp [parseV] at h
  | succ f ih =>
    intro mode st v st1 h
    obtain ⟨toks, bad⟩ := st
    cases mode with
    | value =>
      cases toks with
      | nil => simp [parseV] at h
      | cons t rest =>
        cases t with
        | arrayOpen =>
          simp only [parseV] at h
          have := ih (.inArr []) ⟨rest, bad⟩ v st1 h
          simp at this ⊢; omega
        | objOpen =>
          simp only [parseV] at h
          have := ih (.inObj []) ⟨rest, bad⟩ v st1 h
          simp at this ⊢; omega
        | arrayClose => simp [parseV] at h
        | objClose => simp [parseV] at h
        | null => simp only [parseV] at h; cases h; simp
        | bool b => simp only [parseV] at h; cases h; simp
        | num q => simp only [parseV] at h; cases h; simp
        | str s => simp only [parseV] at h; cases h; simp
    | inArr acc =>
      cases toks with
      | nil => simp [parseV] at h
      | cons t rest =>
        by_cases hclose : t = JToken.arrayClose
        · subst hclose
          simp only [parseV, if_pos] at h
          simp only [Except.ok.injEq, Prod.mk.injEq] at h
          obtain ⟨-, hst⟩ := h
          subst hst
          simp
        · simp only [parseV] at h
          rw [if_neg hclose] at h
          cases hmid : parseV f .value ⟨t :: rest, bad⟩ with
          | error e => rw [hmid] at h; simp only [bind, Except.bind] at h; simp at h
          | ok p =>
            obtain ⟨w, stm⟩ := p
            rw [hmid] at h
            simp only [bind, Except.bind] at h
            have h1 := ih .value ⟨t :: rest, bad⟩ w stm hmid
            have h2 := ih (.inArr (acc ++ [w])) stm v st1 h
            simp at h1 ⊢; omega
    | inObj acc =>
      cases toks with
      | nil => simp [parseV] at h
      | cons t rest =>
        cases t with
        | objClose =>
          simp only [parseV] at h
          simp only [Except.ok.injEq, Prod.mk.injEq] at h
          obtain ⟨-, hst⟩ := h
          subst hst
          simp
        | str s =>
          simp only [parseV] at h
          cases hmid : parseV f .value ⟨rest, bad⟩ with
          | error e => rw [hmid] at h; simp only [bind, Except.bind] at h; simp at h
          | ok p =>
            obtain ⟨w, stm⟩ := p
            rw [hmid] at h
            simp only [bind, Except.bind] at h
            have h1 := ih .value ⟨rest, bad⟩ w stm hmid
            have h2 := ih (.inObj (acc ++ [(s, w)])) stm v st1 h
            simp at h1 ⊢; omega
        | arrayOpen => simp [parseV] at h
        | arrayClose => simp [parseV] at h
        | objOpen => simp [parseV] at h
        | null => simp [parseV] at h
        | bool b => simp [parseV] at h
        | num q => simp [parseV] at h

/-- `CardPrices` from src/models.go. -/
structure CardPrices where
  USD : String
  USDFoil : String
  USDEtched : String
  EUR : String
  EURFoil : String
  TIX : String
deriving Repr, DecidableEq

/-- `CardFace` from src/models.go.  Go maps are modelled as association
lists in decode order. -/
structure CardFace where
  Name : String
  ManaCost : String
  TypeLine : String
  OracleText : String
  Colors : List String
  Power : String
  Toughness : String
  Loyalty : String
  FlavorText : String
  ImageURIs : List (String × String)
deriving Repr, DecidableEq

/-- `Card` from src/models.go.  Go `float64` fields are modelled as exact
rationals and `int` fields as unbounded integers; Go maps are association
lists in decode order. -/
structure Card where
  ID : String
  OracleID : String
  Name : String
  Lang : String
  ReleasedAt : String
  Set : String
  CollectorNumber : String
  Rarity : String
  Layout : String
  ManaCost : String
  TypeLine : String
  OracleText : String
  Power : String
  Toughness : String
  Loyalty : String
  CMC : Rat
  Keywords : List String
  Prices : CardPrices
  ImageURIs : List (String × String)
  CardFaces : List CardFace
  TcgplayerID : Int
  CardmarketID : Int
  Uri : String
  ScryfallURI : String
  RulingsURI : String
  PrintsSearchURI : String
  Digital : Bool
  Reserved : Bool
  EDHRecRank : Int
  PennyRank : Int
  Games : List String
  Promo : Bool
  Reprint : Bool
  Variation : Bool
  Oversized : Bool
  StorySpotlight : Bool
  FullArt : Bool
  Textless : Bool
  Booster : Bool
  FrameEffects : List String
  Frame : String
  SecurityStamp : String
  BorderColor : String
  Watermark : String
deriving Repr, DecidableEq

/-- `CardBulkData` from src/models.go (the Go field `Type` is `Type'`). -/
structure CardBulkData where
  ID : String
  Type' : String
  UpdatedAt : String
  URI : String
  Name : String
  Description : String
  DownloadURI : String
  ContentType : String
  ContentEncoding : String
  CompressedSize : Int
  PermalinkURI : String
deriving Repr, DecidableEq

/-- The Go zero value of `CardPrices`. -/
def prices0 : CardPrices := ⟨"", "", "", "", "", ""⟩

/-- The Go zero value of `CardFace`. -/
def face0 : CardFace := ⟨"", "", "", "", [], "", "", "", "", []⟩

/-- The Go zero value of `Card` (what `var card Card` yields before decode). -/
def card0 : Card :=
  ⟨"", "", "", "", "", "", "", "", "", "", "", "", "", "", "", 0, [], prices0,
   [], [], 0, 0, "", "", "", "", false, false, 0, 0, [], false, false, false,
   false, false, false, false, false, [], "", "", "", ""⟩

/-- The Go zero value of `CardBulkData`. -/
def bulk0 : CardBulkData := ⟨"", "", "", "", "", "", "", "", "", 0, ""⟩

/-!
The following `j…` helpers model `encoding/json` unmarshaling of a JSON
value into a Go value of the given type.  Per the `encoding/json`
documentation, unmarshaling JSON `null` into a non-pointer value has no
effect and produces no error, so every helper accepts `.null` and returns
the current value unchanged; a type mismatch is an unmarshal type error.
-/

/-- Unmarshal into a Go `string` (current value `c`). -/
def jString (c : String) : JValue → Except GoError String
  | .null => .ok c
  | .str s => .ok s
  | _ => .error (.typeErr "cannot unmarshal value into string")

/-- Unmarshal into a Go `float64` (current value `c`). -/
def jFloat (c : Rat) : JValue → Except GoError Rat
  | .null => .ok c
  | .num q => .ok q
  | _ => .error (.typeErr "cannot unmarshal value into float64")

/-- Unmarshal into a Go `int`/`int64` (current value `c`); a fractional
number is an unmarshal type error. -/
def jInt (c : Int) : JValue → Except GoError Int
  | .null => .ok c
  | .num q => if q.den = 1 then .ok q.num else .error (.typeErr "cannot unmarshal fractional number into int")
  | _ => .error (.typeErr "cannot unmarshal value into int")

/-- Unmarshal into a Go `bool` (current value `c`). -/
def jBool (c : Bool) : JValue → Except GoError Bool
  | .null => .ok c
  | .bool b => .ok b
  | _ => .error (.typeErr "cannot unmarshal value into bool")

/-- Unmarshal into a Go `[]string` (current value `c`). -/
def jStringList (c : List String) : JValue → Except GoError (List String)
  | .null => .ok c
  | .arr xs => xs.mapM (jString "")
  | _ => .error (.typeErr "cannot unmarshal value into string slice")

/-- Unmarshal into a Go `map[string]string` (current value `c`). -/
def jStringMap (c : List (String × String)) : JValue → Except GoError (List (String × String))
  | .null => .ok c
  | .obj fs => fs.mapM (fun kv => (jString "" kv.2).map (fun s => (kv.1, s)))
  | _ => .error (.typeErr "cannot unmarshal value into string map")

/-- Unmarshal one JSON object field into a `CardPrices` struct (unknown
keys are ignored, as `encoding/json` does). -/
def setPricesField (p : CardPrices) (k : String) (v : JValue) : Except GoError CardPrices :=
  if k = "usd" then (jString p.USD v).map (fun x => { p with USD := x })
  else if k = "usd_foil" then (jString p.USDFoil v).map (fun x => { p with USDFoil := x })
  else if k = "usd_etched" then (jString p.USDEtched v).map (fun x => { p with USDEtched := x })
  else if k = "eur" then (jString p.EUR v).map (fun x => { p with EUR := x })
  else if k = "eur_foil" then (jString p.EURFoil v).map (fun x => { p with EURFoil := x })
  else if k = "tix" then (jString p.TIX v).map (fun x => { p with TIX := x })
  else .ok p

/-- Unmarshal into a `CardPrices` struct (current value `c`). -/
def jPrices (c : CardPrices) : JValue → Except GoError CardPrices
  | .null => .ok c
  | .obj fs => fs.foldlM (fun p kv => setPricesField p kv.1 kv.2) c
  | _ => .error (.typeErr "cannot unmarshal value into CardPrices")

/-- Unmarshal one JSON object field into a `CardFace` struct. -/
def setFaceField (p : CardFace) (k : String) (v : JValue) : Except GoError CardFace :=
  if k = "name" then (jString p.Name v).map (fun x => { p with Name := x })
  else if k = "mana_cost" then (jString p.ManaCost v).map (fun x => { p with ManaCost := x })
  else if k = "type_line" then (jString p.TypeLine v).map (fun x => { p with TypeLine := x })
  else if k = "oracle_text" then (jString p.OracleText v).map (fun x => { p with OracleText := x })
  else if k = "colors" then (jStringList p.Colors v).map (fun x => { p with Colors := x })
  else if k = "power" then (jString p.Power v).map (fun x => { p with Power := x })
  else if k = "toughness" then (jString p.Toughness v).map (fun x => { p with Toughness := x })
  else if k = "loyalty" then (jString p.Loyalty v).map (fun x => { p with Loyalty := x })
  else if k = "flavor_text" then (jString p.FlavorText v).map (fun x => { p with FlavorText := x })
  else if k = "image_uris" then (jStringMap p.ImageURIs v).map (fun x => { p with ImageURIs := x })
  else .ok p

/-- Unmarshal into a `CardFace` struct (current value `c`). -/
def jFace (c : CardFace) : JValue → Except GoError CardFace
  | .null => .ok c
  | .obj fs => fs.foldlM (fun p kv => setFaceField p kv.1 kv.2) c
  | _ => .error (.typeErr "cannot unmarshal value into CardFace")

/-- Unmarshal into a Go `[]CardFace` (current value `c`). -/
def jFaceList (c : List CardFace) : JValue → Except GoError (List CardFace)
  | .null => .ok c
  | .arr xs => xs.mapM (jFace face0)
  | _ => .error (.typeErr "cannot unmarshal value into CardFace slice")

/-- Unmarshal one JSON object field into a `Card` struct, keyed by the
JSON tags of src/models.go; unknown keys are ignored. -/
def setCardField (c : Card) (k : String) (v : JValue) : Except GoError Card :=
  if k = "id" then (jString c.ID v).map (fun x => { c with ID := x })
  else if k = "oracle_id" then (jString c.OracleID v).map (fun x => { c with OracleID := x })
  else if k = "name" then (jString c.Name v).map (fun x => { c with Name := x })
  else if k = "lang" then (jString c.Lang v).map (fun x => { c with Lang := x })
  else if k = "released_at" then (jString c.ReleasedAt v).map (fun x => { c with ReleasedAt := x })
  else if k = "set" then (jString c.Set v).map (fun x => { c with Set := x })
  else if k = "collector_number" then (jString c.CollectorNumber v).map (fun x => { c with CollectorNumber := x })
  else if k = "rarity" then (jString c.Rarity v).map (fun x => { c with Rarity := x })
  else if k = "layout" then (jString c.Layout v).map (fun x => { c with Layout := x })
  else if k = "mana_cost" then (jString c.ManaCost v).map (fun x => { c with ManaCost := x })
  else if k = "type_line" then (jString c.TypeLine v).map (fun x => { c with TypeLine := x })
  else if k = "oracle_text" then (jString c.OracleText v).map (fun x => { c with OracleText := x })
  else if k = "power" then (jString c.Power v).map (fun x => { c with Power := x })
  else if k = "toughness" then (jString c.Toughness v).map (fun x => { c with Toughness := x })
  else if k = "loyalty" then (jString c.Loyalty v).map (fun x => { c with Loyalty := x })
  else if k = "cmc" then (jFloat c.CMC v).map (fun x => { c with CMC := x })
  else if k = "keywords" then (jStringList c.Keywords v).map (fun x => { c with Keywords := x })
  else if k = "prices" then (jPrices c.Prices v).map (fun x => { c with Prices := x })
  else if k = "image_uris" then (jStringMap c.ImageURIs v).map (fun x => { c with ImageURIs := x })
  else if k = "card_faces" then (jFaceList c.CardFaces v).map (fun x => { c with CardFaces := x })
  else if k = "tcgplayer_id" then (jInt c.TcgplayerID v).map (fun x => { c with TcgplayerID := x })
  else if k = "cardmarket_id" then (jInt c.CardmarketID v).map (fun x => { c with CardmarketID := x })
  else if k = "uri" then (jString c.Uri v).map (fun x => { c with Uri := x })
  else if k = "scryfall_uri" then (jString c.ScryfallURI v).map (fun x => { c with ScryfallURI := x })
  else if k = "rulings_uri" then (jString c.RulingsURI v).map (fun x => { c with RulingsURI := x })
  else if k = "prints_search_uri" then (jString c.PrintsSearchURI v).map (fun x => { c with PrintsSearchURI := x })
  else if k = "digital" then (jBool c.Digital v).map (fun x => { c with Digital := x })
  else if k = "reserved" then (jBool c.Reserved v).map (fun x => { c with Reserved := x })
  else if k = "edhrec_rank" then (jInt c.EDHRecRank v).map (fun x => { c with EDHRecRank := x })
  else if k = "penny_rank" then (jInt c.PennyRank v).map (fun x => { c with PennyRank := x })
  else if k = "games" then (jStringList c.Games v).map (fun x => { c with Games := x })
  else if k = "promo" then (jBool c.Promo v).map (fun x => { c with Promo := x })
  else if k = "reprint" then (jBool c.Reprint v).map (fun x => { c with Reprint := x })
  else if k = "variation" then (jBool c.Variation v).map (fun x => { c with Variation := x })
  else if k = "oversized" then (jBool c.Oversized v).map (fun x => { c with Oversized := x })
  else if k = "story_spotlight" then (jBool c.StorySpotlight v).map (fun x => { c with StorySpotlight := x })
  else if k = "full_art" then (jBool c.FullArt v).map (fun x => { c with FullArt := x })
  else if k = "textless" then (jBool c.Textless v).map (fun x => { c with Textless := x })
  else if k = "booster" then (jBool c.Booster v).map (fun x => { c with Booster := x })
  else if k = "frame_effects" then (jStringList c.FrameEffects v).map (fun x => { c with FrameEffects := x })
  else if k = "frame" then (jString c.Frame v).map (fun x => { c with Frame := x })
  else if k = "security_stamp" then (jString c.SecurityStamp v).map (fun x => { c with SecurityStamp := x })
  else if k = "border_color" then (jString c.BorderColor v).map (fun x => { c with BorderColor := x })
  else if k = "watermark" then (jString c.Watermark v).map (fun x => { c with Watermark := x })
  else .ok c

/-- Model of `json` unmarshaling of one decoded JSON value into a fresh
`var card Card`: an object is decoded field by field, `null` leaves the
zero value, and any other value is an unmarshal type error. -/
def cardOfJValue : JValue → Except GoError Card
  | .null => .ok card0
  | .obj fs => fs.foldlM (fun c kv => setCardField c kv.1 kv.2) card0
  | _ => .error (.typeErr "cannot unmarshal value into Card")

/-- Unmarshal one JSON object field into a `CardBulkData` struct. -/
def setBulkField (b : CardBulkData) (k : String) (v : JValue) : Except GoError CardBulkData :=
  if k = "id" then (jString b.ID v).map (fun x => { b with ID := x })
  else if k = "type" then (jString b.Type' v).map (fun x => { b with Type' := x })
  else if k = "updated_at" then (jString b.UpdatedAt v).map (fun x => { b with UpdatedAt := x })
  else if k = "uri" then (jString b.URI v).map (fun x => { b with URI := x })
  else if k = "name" then (jString b.Name v).map (fun x => { b with Name := x })
  else if k = "description" then (jString b.Description v).map (fun x => { b with Description := x })
  else if k = "download_uri" then (jString b.DownloadURI v).map (fun x => { b with DownloadURI := x })
  else if k = "content_type" then (jString b.ContentType v).map (fun x => { b with ContentType := x })
  else if k = "content_encoding" then (jString b.ContentEncoding v).map (fun x => { b with ContentEncoding := x })
  else if k = "compressed_size" then (jInt b.CompressedSize v).map (fun x => { b with CompressedSize := x })
  else if k = "permalink_uri" then (jString b.PermalinkURI v).map (fun x => { b with PermalinkURI := x })
  else .ok b

/-- Model of `json` unmarshaling of a JSON value into a fresh `CardBulkData`. -/
def bulkDataOfJValue : JValue → Except GoError CardBulkData
  | .null => .ok bulk0
  | .obj fs => fs.foldlM (fun b kv => setBulkField b kv.1 kv.2) bulk0
  | _ => .error (.typeErr "cannot unmarshal value into CardBulkData")

/-- `dec.Decode(&card)` from src/client.go line 267: parse the next JSON
value from the stream and unmarshal it into a fresh `Card`. -/
def decodeCard (st : DecState) : Except GoError (Card × DecState) :=
  match parseValue st with
  | .error e => .error e
  | .ok (v, st1) =>
    match cardOfJValue v with
    | .error e => .error e
    | .ok c => .ok (c, st1)

theorem decodeCard_length {st : DecState} {c : Card} {st1 : DecState}
    (h : decodeCard st = .ok (c, st1)) : st1.toks.length < st.toks.length := by
  unfold decodeCard parseValue at h
  cases hmid : parseV st.toks.length .value st with
  | error e => simp only [hmid] at h; exact absurd h (by simp)
  | ok p =>
    obtain ⟨v, stm⟩ := p
    have hlt := parseV_length st.toks.length .value st v stm hmid
    cases hcv : cardOfJValue v with
    | error e => simp only [hmid, hcv] at h; exact absurd h (by simp)
    | ok c2 =>
      simp only [hmid, hcv, Except.ok.injEq, Prod.mk.injEq] at h
      obtain ⟨-, hst⟩ := h
      subst hst
      exact hlt

/-- Decoding from a stream that starts with a serialized value yields the
unmarshal of that value and leaves the stream positioned right after it. -/
theorem decodeCard_toTokens (v : JValue) (c : Card) (rest : List JToken)
    (bad : Option GoError) (h : cardOfJValue v = .ok c) :
    decodeCard ⟨toTokens v ++ rest, bad⟩ = .ok (c, ⟨rest, bad⟩) := by
  have hp := (parseV_roundtrip ((toTokens v ++ rest).length)).1 v rest bad (by simp)
  unfold decodeCard parseValue
  simp only [hp, h]

/-- The record loop of `ProcessBulkDataStream` (src/client.go lines
265-273): while `More`, decode one record and invoke the callback.  The
callback is modelled as a state transformer `σ → Card → σ × Option GoError`
(a Go closure over mutable state that may return an error); the loop
returns the final callback state, the list of records delivered to the
callback in order, and either the state at which `More` became false or the
error that stopped the loop.  `fuel` bounds the iteration count; the caller
passes one more than the token count, which always suffices because a
successful decode consumes at least one token, so the fuel-exhausted branch
is unreachable from the call sites. -/
def processLoop (cb : σ → Card → σ × Option GoError) :
    Nat → σ → List Card → DecState → σ × List Card × Except GoError DecState
  | 0, s, acc, _ => (s, acc, .error .unexpectedEOF)
  | fuel + 1, s, acc, st =>
    if st.more then
      match decodeCard st with
      | .error e => (s, acc, .error (.errorf "decode card object" (some e)))
      | .ok (card, st1) =>
        match cb s card with
        | (s1, none) => processLoop cb fuel s1 (acc ++ [card]) st1
        | (s1, some e) => (s1, acc ++ [card], .error e)
    else (s, acc, .ok st)

theorem processLoop_step_more {st : DecState} (hm : st.more = true)
    (cb : σ → Card → σ × Option GoError) (fuel : Nat) (s : σ) (acc : List Card) :
    processLoop cb (fuel + 1) s acc st =
      match decodeCard st with
      | .error e => (s, acc, .error (.errorf "decode card object" (some e)))
      | .ok (card, st1) =>
        match cb s card with
        | (s1, none) => processLoop cb fuel s1 (acc ++ [card]) st1
        | (s1, some e) => (s1, acc ++ [card], .error e) := by
  simp only [processLoop, hm, if_true]

theorem processLoop_step_done {st : DecState} (hm : st.more = false)
    (cb : σ → Card → σ × Option GoError) (fuel : Nat) (s : σ) (acc : List Card) :
    processLoop cb (fuel + 1) s acc st = (s, acc, .ok st) := by
  simp only [processLoop, hm, Bool.false_eq_true, if_false]

/-- `(*Client).ProcessBulkDataStream` from src/client.go lines 253-285:
read the opening bracket, loop over records, read the closing bracket.
Returns the final callback state, the records delivered to the callback in
order, and the call\x27s error result (`none` = success). -/
def ProcessBulkDataStream (cb : σ → Card → σ × Option GoError) (s0 : σ)
    (st : DecState) : σ × List Card × Option GoError :=
  match st.token with
  | .error e => (s0, [], some (.errorf "decode opening bracket" (some e)))
  | .ok (t, st1) =>
    match t with
    | .arrayOpen =>
      match processLoop cb (st1.toks.length + 1) s0 [] st1 with
      | (s, cards, .error e) => (s, cards, some e)
      | (s, cards, .ok st2) =>
        match st2.token with
        | .error e => (s, cards, some (.errorf "decode closing bracket" (some e)))
        | .ok (t2, _) =>
          match t2 with
          | .arrayClose => (s, cards, none)
          | _ => (s, cards, some (.errorf "expected \x27]\x27 at end of bulk data" none))
    | _ => (s0, [], some (.errorf "expected \x27[\x27 at start of bulk data" none))

/-- Reference fold describing a sequence of callback invocations: deliver
the cards one at a time, threading the callback state, stopping at the
first callback error.  Returns the final state, the cards delivered
(including the one whose invocation failed), and the first error. -/
def runCB (cb : σ → Card → σ × Option GoError) : σ → List Card → σ × List Card × Option GoError
  | s, [] => (s, [], none)
  | s, c :: cs =>
    match cb s c with
    | (s1, none) =>
      match runCB cb s1 cs with
      | (s2, tr, e) => (s2, c :: tr, e)
    | (s1, some e) => (s1, [c], some e)

theorem runCB_of_never_fails (cb : σ → Card → σ × Option GoError)
    (hcb : ∀ s c, (cb s c).2 = none) (s : σ) (cs : List Card) :
    runCB cb s cs = ((cs.foldl (fun a c => (cb a c).1) s), cs, none) := by
  induction cs generalizing s with
  | nil => simp [runCB]
  | cons c cs ih =>
    have h := hcb s c
    cases hc : cb s c with
    | mk s1 e =>
      rw [hc] at h
      simp at h
      subst h
      simp only [runCB, hc, ih s1]
      simp [hc]

theorem runCB_none_trace (cb : σ → Card → σ × Option GoError)
    {s s1 : σ} {cs tr : List Card}
    (h : runCB cb s cs = (s1, tr, none)) : tr = cs := by
  induction cs generalizing s s1 tr with
  | nil => simp [runCB] at h; simp [h]
  | cons c cs ih =>
    cases hc : cb s c with
    | mk sa e =>
      cases e with
      | some e => simp only [runCB, hc] at h; simp at h
      | none =>
        cases hr : runCB cb sa cs with
        | mk s2 p =>
          obtain ⟨tr2, e2⟩ := p
          simp only [runCB, hc, hr, Prod.mk.injEq] at h
          obtain ⟨-, h2, h3⟩ := h
          subst h3
          rw [← h2, ih hr]

/-- Model of `json` decoding of each element of a list of JSON values into
a `Card` (the per-element view of a well-formed bulk payload). -/
def decodeAll : List JValue → Except GoError (List Card)
  | [] => .ok []
  | v :: vs =>
    match cardOfJValue v, decodeAll vs with
    | .ok c, .ok cs => .ok (c :: cs)
    | .error e, _ => .error e
    | .ok _, .error e => .error e

theorem decodeAll_length {vs : List JValue} {cs : List Card}
    (h : decodeAll vs = .ok cs) : cs.length = vs.length := by
  induction vs generalizing cs with
  | nil => simp [decodeAll] at h; simp [h]
  | cons v vs ih =>
    cases hc : cardOfJValue v with
    | error e => simp only [decodeAll, hc] at h; exact absurd h (by simp)
    | ok c =>
      cases hr : decodeAll vs with
      | error e => simp only [decodeAll, hc, hr] at h; exact absurd h (by simp)
      | ok cs2 =>
        simp only [decodeAll, hc, hr, Except.ok.injEq] at h
        subst h
        simp [ih hr]

/-- The loop result does not depend on the fuel, provided the fuel exceeds
the remaining token count (each iteration consumes at least one token). -/
theorem processLoop_fuel (cb : σ → Card → σ × Option GoError) :
    ∀ (n f1 f2 : Nat) (s : σ) (acc : List Card) (st : DecState),
      st.toks.length ≤ n → st.toks.length < f1 → st.toks.length < f2 →
      processLoop cb f1 s acc st = processLoop cb f2 s acc st := by
  intro n
  induction n with
  | zero =>
    intro f1 f2 s acc st hn h1 h2
    obtain ⟨f1, rfl⟩ : ∃ g, f1 = g + 1 := ⟨f1 - 1, by omega⟩
    obtain ⟨f2, rfl⟩ : ∃ g, f2 = g + 1 := ⟨f2 - 1, by omega⟩
    cases hm : st.more with
    | false => rw [processLoop_step_done hm, processLoop_step_done hm]
    | true =>
      rw [processLoop_step_more hm, processLoop_step_more hm]
      cases hdec : decodeCard st with
      | error e => rfl
      | ok p =>
        obtain ⟨c, st1⟩ := p
        have hlen := decodeCard_length hdec
        omega
  | succ n ih =>
    intro f1 f2 s acc st hn h1 h2
    obtain ⟨f1, rfl⟩ : ∃ g, f1 = g + 1 := ⟨f1 - 1, by omega⟩
    obtain ⟨f2, rfl⟩ : ∃ g, f2 = g + 1 := ⟨f2 - 1, by omega⟩
    cases hm : st.more with
    | false => rw [processLoop_step_done hm, processLoop_step_done hm]
    | true =>
      rw [processLoop_step_more hm, processLoop_step_more hm]
      cases hdec : decodeCard st with
      | error e => rfl
      | ok p =>
        obtain ⟨c, st1⟩ := p
        have hlen := decodeCard_length hdec
        cases hc : cb s c with
        | mk s1 e =>
          cases e with
          | none =>
            simp only [hc]
            exact ih f1 f2 s1 (acc ++ [c]) st1 (by omega) (by omega) (by omega)
          | some e => simp [hc]

/-- Behaviour of the record loop on a stream that starts with the
serialization of `vs` (all of which unmarshal into cards `cs`): the loop
performs the callback run over `cs`; if the run fails the loop stops with
that error, otherwise the loop continues on the remaining stream. -/
theorem processLoop_append (cb : σ → Card → σ × Option GoError)
    (vs : List JValue) (cs : List Card) (hdec : decodeAll vs = .ok cs) :
    ∀ (fuel : Nat) (s : σ) (acc : List Card) (tail : List JToken) (bad : Option GoError),
      (toTokensList vs ++ tail).length < fuel →
      processLoop cb fuel s acc ⟨toTokensList vs ++ tail, bad⟩ =
        match runCB cb s cs with
        | (s1, tr, some e) => (s1, acc ++ tr, .error e)
        | (s1, tr, none) => processLoop cb (tail.length + 1) s1 (acc ++ tr) ⟨tail, bad⟩ := by
  induction vs generalizing cs with
  | nil =>
    intro fuel s acc tail bad hfuel
    simp only [decodeAll, Except.ok.injEq] at hdec
    subst hdec
    simp only [runCB, toTokensList, List.nil_append, List.append_nil]
    exact processLoop_fuel cb tail.length fuel (tail.length + 1) s acc ⟨tail, bad⟩
      (by simp) (by simpa [toTokensList] using hfuel) (by simp)
  | cons v vs ih =>
    intro fuel s acc tail bad hfuel
    cases hc : cardOfJValue v with
    | error e => simp only [decodeAll, hc] at hdec; exact absurd hdec (by simp)
    | ok c =>
      cases hr : decodeAll vs with
      | error e => simp only [decodeAll, hc, hr] at hdec; exact absurd hdec (by simp)
      | ok cs2 =>
        simp only [decodeAll, hc, hr, Except.ok.injEq] at hdec
        subst hdec
        obtain ⟨fuel, rfl⟩ : ∃ g, fuel = g + 1 := ⟨fuel - 1, by omega⟩
        simp only [toTokensList, List.append_assoc] at hfuel ⊢
        have hm : DecState.more ⟨toTokens v ++ (toTokensList vs ++ tail), bad⟩ = true :=
          more_toTokens v _ bad
        rw [processLoop_step_more hm]
        rw [decodeCard_toTokens v c _ bad hc]
        cases hcb : cb s c with
        | mk s1 e =>
          cases e with
          | none =>
            have hfuel2 : (toTokensList vs ++ tail).length < fuel := by
              have := toTokens_length_pos v
              simp at hfuel ⊢
              omega
            simp only [hcb]
            rw [ih cs2 hr fuel s1 (acc ++ [c]) tail bad hfuel2]
            simp only [runCB, hcb]
            cases hrun : runCB cb s1 cs2 with
            | mk s2 p =>
              obtain ⟨tr, e2⟩ := p
              simp only [hrun]
              cases e2 <;> simp [List.append_assoc]
          | some e => simp only [runCB, hcb]

/-- Helper shared by the well-formed-stream claims: on the serialized
array of `vs` (decoding to `cs`) with a callback whose run over `cs` does
not fail, `ProcessBulkDataStream` returns the run\x27s final state, delivers
exactly the decoded records in order, and succeeds. -/
theorem processBulk_wf {σ : Type} (cb : σ → Card → σ × Option GoError)
    (s0 s1 : σ) (vs : List JValue) (cs tr : List Card)
    (hdec : decodeAll vs = .ok cs)
    (hrun : runCB cb s0 cs = (s1, tr, none)) :
    ProcessBulkDataStream cb s0 ⟨.arrayOpen :: (toTokensList vs ++ [.arrayClose]), none⟩
      = (s1, cs, none) := by
  simp only [ProcessBulkDataStream, DecState.token]
  rw [processLoop_append cb vs cs hdec _ s0 [] [.arrayClose] none (by simp)]
  simp only [hrun, List.nil_append]
  rw [processLoop_step_done (by rfl : DecState.more ⟨[JToken.arrayClose], none⟩ = false)]
  simp only [DecState.token]
  rw [runCB_none_trace cb hrun]

/-- Helper shared by the invalid-record claims: after the serialized valid
records `vs` (decoding to `cs`, callback run succeeding), a position where
`More` holds but decoding fails with `e` makes the call deliver exactly the
preceding records and fail with the "decode card object" wrap of `e`. -/
theorem processBulk_badtail {σ : Type} (cb : σ → Card → σ × Option GoError)
    (s0 s1 : σ) (vs : List JValue) (cs tr : List Card)
    (tail : List JToken) (bad : Option GoError) (e : GoError)
    (hdec : decodeAll vs = .ok cs)
    (hrun : runCB cb s0 cs = (s1, tr, none))
    (hmore : DecState.more ⟨tail, bad⟩ = true)
    (hfail : decodeCard ⟨tail, bad⟩ = .error e) :
    ProcessBulkDataStream cb s0 ⟨.arrayOpen :: (toTokensList vs ++ tail), bad⟩
      = (s1, cs, some (.errorf "decode card object" (some e))) := by
  have htr := runCB_none_trace cb hrun
  rw [htr] at hrun
  simp only [ProcessBulkDataStream, DecState.token]
  rw [processLoop_append cb vs cs hdec _ s0 [] tail bad (by simp)]
  simp only [hrun, List.nil_append]
  rw [processLoop_step_more hmore]
  simp only [hfail]

/-- C1: for every byte stream containing a well-formed top-level JSON array
of N record values (each unmarshaling into a `Card`), and every record
callback that succeeds on each of them, `ProcessBulkDataStream` invokes the
callback exactly N times, once per record in array order (the delivered
trace is the decode of the array, in order), and returns success; in
particular the empty array yields zero invocations and success. -/
theorem bulk_stream_wellformed_delivers_all {σ : Type} (cb : σ → Card → σ × Option GoError)
    (s0 s1 : σ) (vs : List JValue) (cs tr : List Card)
    (hdec : decodeAll vs = .ok cs)
    (hrun : runCB cb s0 cs = (s1, tr, none)) :
    ProcessBulkDataStream cb s0 ⟨.arrayOpen :: (toTokensList vs ++ [.arrayClose]), none⟩
      = (s1, cs, none) ∧ cs.length = vs.length :=
  ⟨processBulk_wf cb s0 s1 vs cs tr hdec hrun, decodeAll_length hdec⟩

/-- C1 witness: a two-record array (a `null` record and an object record)
with a trivially succeeding callback delivers both records in order and
succeeds; the second conjunct instantiates the empty array. -/
theorem bulk_stream_wellformed_delivers_all_witness :
    (ProcessBulkDataStream (fun (_ : Unit) _ => ((), none)) ()
        ⟨.arrayOpen :: (toTokensList [JValue.null, JValue.obj [("name", JValue.str "A")]] ++ [.arrayClose]), none⟩
      = ((), [card0, { card0 with Name := "A" }], none)
      ∧ ([card0, { card0 with Name := "A" }] : List Card).length =
          ([JValue.null, JValue.obj [("name", JValue.str "A")]] : List JValue).length)
    ∧ (ProcessBulkDataStream (fun (_ : Unit) _ => ((), none)) ()
        ⟨.arrayOpen :: (toTokensList [] ++ [.arrayClose]), none⟩
      = ((), [], none)
      ∧ ([] : List Card).length = ([] : List JValue).length) :=
  ⟨bulk_stream_wellformed_delivers_all (fun (_ : Unit) _ => ((), none)) () ()
      [JValue.null, JValue.obj [("name", JValue.str "A")]]
      [card0, { card0 with Name := "A" }] [card0, { card0 with Name := "A" }]
      (by rfl) (by rfl),
   bulk_stream_wellformed_delivers_all (fun (_ : Unit) _ => ((), none)) () ()
      [] [] [] (by rfl) (by rfl)⟩

/-- C2 counterexample: on the exhausted byte stream (no first token at
all), `ProcessBulkDataStream` does fail with zero callback invocations, but
the error is the wrap of the tokenizer error (message
"decode opening bracket: EOF"), not the claimed
"expected \x27[\x27 at start of bulk data" error. -/
theorem bulk_stream_bad_start_counterexample :
    ProcessBulkDataStream (fun (_ : Unit) _ => ((), none)) () ⟨[], none⟩
      = ((), [], some (.errorf "decode opening bracket" (some .eof)))
    ∧ errMsg (.errorf "decode opening bracket" (some .eof)) = "decode opening bracket: EOF"
    ∧ errMsg (.errorf "decode opening bracket" (some .eof)) ≠
        "expected \x27[\x27 at start of bulk data" :=
  ⟨rfl, rfl, by decide⟩

/-- C2 (amended): on a stream whose first token is not the array-open
delimiter, `ProcessBulkDataStream` fails with the
"expected \x27[\x27 at start of bulk data" error; on a stream that is
exhausted or malformed at the first token it fails with a MalformedPayload
error wrapping the tokenizer error ("decode opening bracket: ...").  In
both cases the record callback is invoked zero times. -/
theorem bulk_stream_bad_start {σ : Type} (cb : σ → Card → σ × Option GoError)
    (s0 : σ) (st : DecState) :
    (st.toks = [] →
      ProcessBulkDataStream cb s0 st
        = (s0, [], some (.errorf "decode opening bracket" (some (st.bad.getD .eof))))) ∧
    (∀ t rest, st.toks = t :: rest → t ≠ JToken.arrayOpen →
      ProcessBulkDataStream cb s0 st
        = (s0, [], some (.errorf "expected \x27[\x27 at start of bulk data" none))) := by
  obtain ⟨toks, bad⟩ := st
  constructor
  · intro h
    simp only at h
    subst h
    simp [ProcessBulkDataStream, DecState.token]
  · intro t rest h hne
    simp only at h
    subst h
    simp only [ProcessBulkDataStream, DecState.token]

/-- C2 (amended) witness: a malformed-at-first-token stream yields the
wrapped tokenizer error, and a stream opening with an object yields the
"expected \x27[\x27" error; zero invocations in both cases. -/
theorem bulk_stream_bad_start_witness :
    ProcessBulkDataStream (fun (_ : Unit) _ => ((), none)) ()
        ⟨[], some (.synErr "invalid character \x27x\x27")⟩
      = ((), [], some (.errorf "decode opening bracket"
          (some (.synErr "invalid character \x27x\x27"))))
    ∧ ProcessBulkDataStream (fun (_ : Unit) _ => ((), none)) () ⟨[.objOpen], none⟩
      = ((), [], some (.errorf "expected \x27[\x27 at start of bulk data" none)) := by
  constructor
  · have h := (bulk_stream_bad_start (fun (_ : Unit) _ => ((), none)) ()
      ⟨[], some (.synErr "invalid character \x27x\x27")⟩).1 rfl
    simpa using h
  · exact (bulk_stream_bad_start (fun (_ : Unit) _ => ((), none)) ()
      ⟨[.objOpen], none⟩).2 .objOpen [] rfl (by simp)

/-- C3: over any stream that opens an array and continues with the
serialization of records `vs` (decoding to cards `cs`), if the callback run
over `cs` fails at its k-th invocation with error `e`, then
`ProcessBulkDataStream` invokes the callback exactly k times (the delivered
trace `tr` has length k), stops, and returns exactly `e` — the callback's
error value itself, not a wrap of it. -/
theorem bulk_stream_callback_error_propagates {σ : Type} (cb : σ → Card → σ × Option GoError)
    (s0 s1 : σ) (vs : List JValue) (cs tr : List Card) (e : GoError) (k : Nat)
    (tail : List JToken) (bad : Option GoError)
    (hdec : decodeAll vs = .ok cs)
    (hrun : runCB cb s0 cs = (s1, tr, some e))
    (hk : tr.length = k) :
    ProcessBulkDataStream cb s0 ⟨.arrayOpen :: (toTokensList vs ++ tail), bad⟩
      = (s1, tr, some e) ∧ tr.length = k := by
  refine ⟨?_, hk⟩
  simp only [ProcessBulkDataStream, DecState.token]
  rw [processLoop_append cb vs cs hdec _ s0 [] tail bad (by simp)]
  simp only [hrun, List.nil_append]

/-- C3 witness: a three-record array with a counting callback that fails on
its second invocation: exactly two records are delivered and the callback's
own error comes back unwrapped. -/
theorem bulk_stream_callback_error_propagates_witness :
    ProcessBulkDataStream
        (fun (n : Nat) _ => (n + 1, if n = 0 then none else some (.external "stop"))) 0
        ⟨.arrayOpen :: (toTokensList [JValue.null, JValue.null, JValue.null] ++ [.arrayClose]), none⟩
      = (2, [card0, card0], some (.external "stop"))
    ∧ ([card0, card0] : List Card).length = 2 :=
  bulk_stream_callback_error_propagates
    (fun (n : Nat) _ => (n + 1, if n = 0 then none else some (.external "stop")))
    0 2 [JValue.null, JValue.null, JValue.null] [card0, card0, card0] [card0, card0]
    (.external "stop") 2 [.arrayClose] none (by rfl) (by rfl) (by rfl)

/-- C4: over any stream that opens an array, continues with the
serialization of `k` valid records `vs` (decoding to cards `cs`), and then
reaches a position where `More` reports another element but decoding it
fails with error `e` (structurally invalid JSON value), and whose callback
succeeds on the k valid records, `ProcessBulkDataStream` delivers all k
preceding records to the callback (no rollback) and fails with the
MalformedPayload error wrapping the decode error. -/
theorem bulk_stream_invalid_record {σ : Type} (cb : σ → Card → σ × Option GoError)
    (s0 s1 : σ) (vs : List JValue) (cs tr : List Card)
    (tail : List JToken) (bad : Option GoError) (e : GoError)
    (hdec : decodeAll vs = .ok cs)
    (hrun : runCB cb s0 cs = (s1, tr, none))
    (hmore : DecState.more ⟨tail, bad⟩ = true)
    (hfail : decodeCard ⟨tail, bad⟩ = .error e) :
    ProcessBulkDataStream cb s0 ⟨.arrayOpen :: (toTokensList vs ++ tail), bad⟩
      = (s1, cs, some (.errorf "decode card object" (some e)))
    ∧ cs.length = vs.length :=
  ⟨processBulk_badtail cb s0 s1 vs cs tr tail bad e hdec hrun hmore hfail,
   decodeAll_length hdec⟩

/-- C4 witness: one valid `null` record followed by a bare string where a
record object is expected: the one preceding record is delivered, then the
call fails with the wrap of the unmarshal type error. -/
theorem bulk_stream_invalid_record_witness :
    ProcessBulkDataStream (fun (_ : Unit) _ => ((), none)) ()
        ⟨.arrayOpen :: (toTokensList [JValue.null] ++ [.str "x"]), none⟩
      = ((), [card0], some (.errorf "decode card object"
          (some (.typeErr "cannot unmarshal value into Card"))))
    ∧ ([card0] : List Card).length = ([JValue.null] : List JValue).length :=
  bulk_stream_invalid_record (fun (_ : Unit) _ => ((), none)) () ()
    [JValue.null] [card0] [card0] [.str "x"] none
    (.typeErr "cannot unmarshal value into Card")
    (by rfl) (by rfl) (by rfl) (by rfl)

/-- `progressReader` from src/client.go lines 287-292: a byte-counting
wrapper around a response body.  `Total` is the declared content length
(negative means unknown), `Current` the running total of bytes read, and
`hasOnRead` whether a progress callback was supplied (`OnRead != nil`). -/
structure progressReader where
  Total : Int
  Current : Int
  hasOnRead : Bool
deriving Repr, DecidableEq

/-- `(*progressReader).Read` from src/client.go lines 294-301.  The
underlying read returned `n` bytes and error `e`; the wrapper adds `n` to
the running total, invokes `OnRead(Current, Total)` when a callback was
supplied (always, including when `n = 0` at end of stream), and returns the
underlying `(n, e)` unchanged.  The result is (returned read result,
updated reader, list of `OnRead` invocations made — at most one). -/
def progressReader.Read (r : progressReader) (n : Nat) (e : Option GoError) :
    (Nat × Option GoError) × progressReader × List (Int × Int) :=
  let cur := r.Current + n
  ((n, e), { r with Current := cur }, if r.hasOnRead then [(cur, r.Total)] else [])

/-- Drive the wrapper through a sequence of successful underlying reads of
the given sizes, collecting every `OnRead` invocation in order. -/
def progressRun (r : progressReader) : List Nat → progressReader × List (Int × Int)
  | [] => (r, [])
  | n :: ns =>
    match r.Read n none with
    | (_, r1, calls) =>
      match progressRun r1 ns with
      | (r2, rest) => (r2, calls ++ rest)

/-- The `OnRead` invocation trace of a fresh progress reader (callback
supplied) over underlying reads of the given sizes. -/
def progressTrace (total : Int) (chunks : List Nat) : List (Int × Int) :=
  (progressRun ⟨total, 0, true⟩ chunks).2

/-- The running totals after each read, starting from `cur`. -/
def runningTotals (cur : Int) : List Nat → List Int
  | [] => []
  | n :: ns => (cur + n) :: runningTotals (cur + n) ns

theorem progressRun_spec (t cur : Int) (ns : List Nat) :
    progressRun ⟨t, cur, true⟩ ns =
      (⟨t, cur + ((ns.sum : Nat) : Int), true⟩,
       (runningTotals cur ns).map (fun m => (m, t))) := by
  induction ns generalizing cur with
  | nil => simp [progressRun, runningTotals]
  | cons n ns ih =>
    simp only [progressRun, progressReader.Read, if_true, runningTotals, List.map_cons]
    rw [ih (cur + n)]
    simp [add_assoc]

theorem runningTotals_length (cur : Int) (ns : List Nat) :
    (runningTotals cur ns).length = ns.length := by
  induction ns generalizing cur with
  | nil => simp [runningTotals]
  | cons n ns ih => simp [runningTotals, ih]

theorem runningTotals_getLast (cur : Int) (ns : List Nat) (h : ns ≠ []) :
    (runningTotals cur ns).getLast? = some (cur + ((ns.sum : Nat) : Int)) := by
  induction ns generalizing cur with
  | nil => simp at h
  | cons n ns ih =>
    cases hns : ns with
    | nil => simp [runningTotals]
    | cons m ms =>
      subst hns
      show ((cur + ↑n) :: (cur + ↑n + ↑m) :: runningTotals (cur + ↑n + ↑m) ms).getLast?
        = some (cur + ((((n :: m :: ms : List Nat)).sum : Nat) : Int))
      rw [List.getLast?_cons_cons]
      show (runningTotals (cur + ↑n) (m :: ms)).getLast? = _
      rw [ih (cur + ↑n) (by simp)]
      congr 1
      push_cast [List.sum_cons]
      ring

theorem getLastQ_map_pair (t : Int) (l : List Int) :
    (l.map (fun m => (m, t))).getLast? = l.getLast?.map (fun m => (m, t)) := by
  induction l with
  | nil => rfl
  | cons a l ih =>
    cases l with
    | nil => rfl
    | cons b l2 =>
      rw [List.map_cons, List.map_cons, List.getLast?_cons_cons, List.getLast?_cons_cons]
      exact ih

theorem runningTotals_chain_le (cur : Int) (ns : List Nat) :
    List.Chain' (· ≤ ·) (runningTotals cur ns) := by
  induction ns generalizing cur with
  | nil => simp [runningTotals]
  | cons n ns ih =>
    rw [runningTotals]
    refine List.Chain'.cons' (ih (cur + n)) ?_
    intro y hy
    cases ns with
    | nil => simp [runningTotals] at hy
    | cons m ms =>
      simp [runningTotals] at hy
      subst hy
      omega

theorem runningTotals_chain_lt (cur : Int) (ns : List Nat)
    (hpos : ∀ n ∈ ns, 0 < n) :
    List.Chain' (· < ·) (runningTotals cur ns) := by
  induction ns generalizing cur with
  | nil => simp [runningTotals]
  | cons n ns ih =>
    rw [runningTotals]
    refine List.Chain'.cons' (ih (cur + n) (fun m hm => hpos m (by simp [hm]))) ?_
    intro y hy
    cases ns with
    | nil => simp [runningTotals] at hy
    | cons m ms =>
      simp [runningTotals] at hy
      subst hy
      have := hpos m (by simp)
      omega

/-- C9 counterexample: over underlying reads of 3 bytes and then a
zero-byte end-of-stream read, the progress callback is invoked twice with
the same running total 3, so the running-total argument is not strictly
increasing across invocations (the code adds `n` and then calls `OnRead`
unconditionally, including for `n = 0`). -/
theorem progress_strictly_increasing_counterexample :
    progressTrace 10 [3, 0] = [(3, 10), (3, 10)]
    ∧ ¬ List.Chain' (fun a b : Int × Int => a.1 < b.1) (progressTrace 10 [3, 0]) := by
  constructor
  · rfl
  · rw [show progressTrace 10 [3, 0] = [(3, 10), (3, 10)] from rfl]
    rw [List.chain'_cons]
    simp

/-- C9 (amended): with a progress callback supplied, the callback is
invoked after every underlying read including zero-byte end-of-stream
reads (trace length = number of reads, hence at least once on a non-empty
read sequence); its running-total argument is non-decreasing, and strictly
increasing when every read returns at least one byte; and the final
invocation\x27s running total equals the number of bytes actually read. -/
theorem progress_callback_trace (t : Int) (ns : List Nat) :
    (progressTrace t ns).length = ns.length
    ∧ (ns ≠ [] → (progressTrace t ns).getLast? = some (((ns.sum : Nat) : Int), t))
    ∧ List.Chain' (fun a b : Int × Int => a.1 ≤ b.1) (progressTrace t ns)
    ∧ ((∀ n ∈ ns, 0 < n) → List.Chain' (fun a b : Int × Int => a.1 < b.1) (progressTrace t ns)) := by
  unfold progressTrace
  rw [progressRun_spec]
  refine ⟨by simp [runningTotals_length], fun h => ?_, ?_, fun hpos => ?_⟩
  · rw [getLastQ_map_pair, runningTotals_getLast 0 ns h]
    simp
  · rw [List.chain'_map]
    simpa using runningTotals_chain_le 0 ns
  · rw [List.chain'_map]
    simpa using runningTotals_chain_lt 0 ns hpos

/-- C9 (amended) witness: two positive reads of 2 and 3 bytes give two
invocations, non-decreasing (indeed strict) totals, and final total 5. -/
theorem progress_callback_trace_witness :
    (progressTrace 7 [2, 3]).length = ([2, 3] : List Nat).length
    ∧ (progressTrace 7 [2, 3]).getLast? = some ((((([2, 3] : List Nat).sum : Nat)) : Int), 7)
    ∧ List.Chain' (fun a b : Int × Int => a.1 ≤ b.1) (progressTrace 7 [2, 3])
    ∧ List.Chain' (fun a b : Int × Int => a.1 < b.1) (progressTrace 7 [2, 3]) := by
  obtain ⟨h1, h2, h3, h4⟩ := progress_callback_trace 7 [2, 3]
  exact ⟨h1, h2 (by simp), h3, h4 (by decide)⟩


/-- Outcome oracle of the bulk-download HTTP fetch of src/client.go
(`http.NewRequestWithContext` failure, `httpClient.Do` failure, or a
response). -/
structure BulkResponse where
  status : Nat
  contentLength : Int
  chunks : List Nat
  stream : DecState

/-- Transport oracle for the bulk-download operations. -/
inductive Transport where
  | reqErr (e : GoError)
  | doErr (e : GoError)
  | resp (r : BulkResponse)

/-- Observable outcome of `DownloadBulkDataStream`: final callback state,
records delivered to the card callback in order, progress-callback
invocations, and the returned error. -/
structure StreamOutcome (σ : Type) where
  state : σ
  cards : List Card
  progress : List (Int × Int)
  err : Option GoError

/-- `(*Client).DownloadBulkDataStream` from src/client.go lines 159-198:
validate the URI, perform the GET (no rate-limit gate), fail with the
download-failed error on status >= 400, wrap the body in a progress reader
when a progress callback is supplied, and hand the stream to
`ProcessBulkDataStream`, propagating its result unchanged.  The response
body is observed through two views of the same bytes: its token stream
(`stream`, consumed by the JSON decoder) and its read-chunk sizes
(`chunks`, seen by the progress reader); `hasProgressFn` models
`progressFn != nil`. -/
def DownloadBulkDataStream {σ : Type} (downloadURI : String) (tr : Transport)
    (cardCallback : σ → Card → σ × Option GoError) (s0 : σ)
    (hasProgressFn : Bool) : StreamOutcome σ :=
  if downloadURI = "" then ⟨s0, [], [], some (.errorf "download URI is required" none)⟩
  else
    match tr with
    | .reqErr e => ⟨s0, [], [], some (.errorf "create request" (some e))⟩
    | .doErr e => ⟨s0, [], [], some (.errorf "perform request" (some e))⟩
    | .resp r =>
      if 400 ≤ r.status then
        ⟨s0, [], [], some (.errorf ("download failed with status " ++ toString r.status) none)⟩
      else
        let prog := if hasProgressFn then progressTrace r.contentLength r.chunks else []
        match ProcessBulkDataStream cardCallback s0 r.stream with
        | (s1, cards, err) => ⟨s1, cards, prog, err⟩

/-- `(*Client).DownloadToFile` from src/client.go lines 201-250: validate
the URI, perform the GET, fail on status >= 400, create the destination
file, and copy the (progress-wrapped) body to it.  `createErr` and
`copyErr` are the filesystem/copy oracles.  Returns the progress-callback
invocations and the error result. -/
def DownloadToFile (downloadURI filePath : String) (tr : Transport)
    (createErr : Option GoError) (copyErr : Option GoError)
    (hasProgress : Bool) : List (Int × Int) × Option GoError :=
  if downloadURI = "" then ([], some (.errorf "download URI is required" none))
  else
    match tr with
    | .reqErr e => ([], some (.errorf "create request" (some e)))
    | .doErr e => ([], some (.errorf "perform request" (some e)))
    | .resp r =>
      if 400 ≤ r.status then
        ([], some (.errorf ("download failed with status " ++ toString r.status) none))
      else
        match createErr with
        | some e => ([], some (.errorf "create file" (some e)))
        | none =>
          let prog := if hasProgress then progressTrace r.contentLength r.chunks else []
          match copyErr with
          | some e => (prog, some (.errorf "copy to file" (some e)))
          | none => (prog, none)

/-- `(*Client).DownloadBulkData` from src/client.go lines 305-312: the
materialize mode — call `DownloadBulkDataStream` with a callback that
appends every record to an in-memory slice (and never fails) and no
progress callback, and return the slice together with the error. -/
def DownloadBulkData (downloadURI : String) (tr : Transport) :
    List Card × Option GoError :=
  let out := DownloadBulkDataStream downloadURI tr
    (fun cards card => (cards ++ [card], none)) ([] : List Card) false
  (out.state, out.err)

theorem foldl_snoc_eq (acc cs : List Card) :
    cs.foldl (fun a c => a ++ [c]) acc = acc ++ cs := by
  induction cs generalizing acc with
  | nil => simp
  | cons c cs ih => simp [ih]

/-- `Body` is the interface-level view of an endpoint response body as
consumed by src/client.go: reading it may fail, or it holds zero bytes,
bytes that are not valid JSON, or bytes encoding a JSON value. -/
inductive Body where
  | readErr (e : GoError)
  | empty
  | malformed (msg : String)
  | json (v : JValue)

/-- Unmarshal one JSON object field into an `APIError` struct (json tags
from src/client.go lines 364-370; unknown keys ignored). -/
def setAPIErrField (a : APIError) (k : String) (v : JValue) : Except GoError APIError :=
  if k = "details" then (jString a.Details v).map (fun x => { a with Details := x })
  else if k = "type" then (jString a.Type' v).map (fun x => { a with Type' := x })
  else if k = "warnings" then (jStringList a.Warnings v).map (fun x => { a with Warnings := x })
  else .ok a

/-- Model of `json` unmarshaling of a JSON value into a fresh `APIError`. -/
def apiErrorOfJValue : JValue → Except GoError APIError
  | .null => .ok ⟨0, "", "", []⟩
  | .obj fs => fs.foldlM (fun a kv => setAPIErrField a kv.1 kv.2) ⟨0, "", "", []⟩
  | _ => .error (.typeErr "cannot unmarshal value into APIError")

/-- `decodeAPIError` from src/client.go lines 382-395: read the whole error
body (propagating a read failure), treat an empty body as a zero
`APIError`, and otherwise unmarshal it (propagating a JSON failure). -/
def decodeAPIError : Body → Except GoError APIError
  | .readErr e => .error e
  | .empty => .ok ⟨0, "", "", []⟩
  | .malformed m => .error (.synErr m)
  | .json v => apiErrorOfJValue v

/-- One HTTP response to an endpoint GET. -/
structure EndpointResponse where
  status : Nat
  body : Body

/-- Oracle for one gated endpoint GET: the rate-limiter wait fails, the
path fails to parse, building the request fails, performing it fails, or a
response arrives. -/
inductive GetTransport where
  | waitErr (e : GoError)
  | pathErr (e : GoError)
  | reqErr (e : GoError)
  | doErr (e : GoError)
  | resp (r : EndpointResponse)

/-- Which external effects a call performed: whether it waited on the rate
limiter and whether it attempted the network request. -/
structure CallLog where
  limiterWaited : Bool
  networkCalled : Bool
deriving Repr, DecidableEq

/-- `(*Client).get` from src/client.go lines 314-362: wait on the rate
limiter, resolve the path, build and perform the request; on status >= 400
decode the body as an `APIError` and return it with the status attached
(wrapping the decode failure with the status if the error body is
unreadable or malformed); otherwise read the body and unmarshal it into
the destination via `dj`. -/
def get {α : Type} (tr : GetTransport) (dj : JValue → Except GoError α) :
    Except GoError α × CallLog :=
  match tr with
  | .waitErr e => (.error (.errorf "wait for rate limiter" (some e)), ⟨true, false⟩)
  | .pathErr e => (.error (.errorf "invalid path" (some e)), ⟨true, false⟩)
  | .reqErr e => (.error (.errorf "create request" (some e)), ⟨true, false⟩)
  | .doErr e => (.error (.errorf "perform request" (some e)), ⟨true, true⟩)
  | .resp r =>
    if 400 ≤ r.status then
      match decodeAPIError r.body with
      | .error readFailure =>
        (.error (.errorf ("scryfall error status " ++ toString r.status) (some readFailure)),
         ⟨true, true⟩)
      | .ok apiErr => (.error (.api { apiErr with StatusCode := r.status }), ⟨true, true⟩)
    else
      match r.body with
      | .readErr e => (.error (.errorf "read response body" (some e)), ⟨true, true⟩)
      | .empty =>
        (.error (.errorf "decode response" (some (.synErr "unexpected end of JSON input"))),
         ⟨true, true⟩)
      | .malformed m => (.error (.errorf "decode response" (some (.synErr m))), ⟨true, true⟩)
      | .json v =>
        match dj v with
        | .error e => (.error (.errorf "decode response" (some e)), ⟨true, true⟩)
        | .ok a => (.ok a, ⟨true, true⟩)

/-- `(*Client).GetCardByID` from src/client.go lines 106-116: reject an
empty id before waiting on the limiter or touching the network, otherwise
perform the gated GET and decode a `Card`. -/
def GetCardByID (id : String) (tr : GetTransport) : Except GoError Card × CallLog :=
  if id = "" then (.error (.errorf "card id is required" none), ⟨false, false⟩)
  else get tr cardOfJValue

/-- `(*Client).GetBulkDataByType` from src/client.go lines 144-154: reject
an empty type tag before waiting on the limiter or touching the network,
otherwise perform the gated GET and decode a `CardBulkData`. -/
def GetBulkDataByType (bulkType : String) (tr : GetTransport) :
    Except GoError CardBulkData × CallLog :=
  if bulkType = "" then (.error (.errorf "bulk type is required" none), ⟨false, false⟩)
  else get tr bulkDataOfJValue


/-- C5: for every non-empty download location and every response carrying a
well-formed stream of N records, `DownloadBulkData` (the materialize mode)
returns exactly the N decoded records in input order with no error, and
that sequence equals the sequence of records `DownloadBulkDataStream`
delivers to any non-failing callback over the same stream. -/
theorem materialize_equals_stream {σ : Type} (downloadURI : String) (tr : Transport)
    (r : BulkResponse) (vs : List JValue) (cs : List Card)
    (cb : σ → Card → σ × Option GoError) (s0 : σ) (hp : Bool)
    (huri : downloadURI ≠ "") (htr : tr = .resp r) (hst : r.status < 400)
    (hstream : r.stream = ⟨.arrayOpen :: (toTokensList vs ++ [.arrayClose]), none⟩)
    (hdec : decodeAll vs = .ok cs)
    (hcb : ∀ s c, (cb s c).2 = none) :
    DownloadBulkData downloadURI tr = (cs, none)
    ∧ cs.length = vs.length
    ∧ (DownloadBulkDataStream downloadURI tr cb s0 hp).cards = cs := by
  subst htr
  have hwf : ProcessBulkDataStream cb s0 r.stream
      = (cs.foldl (fun a c => (cb a c).1) s0, cs, none) := by
    rw [hstream]
    exact processBulk_wf cb s0 _ vs cs cs hdec (runCB_of_never_fails cb hcb s0 cs)
  have happ : ProcessBulkDataStream
      (fun (cards : List Card) card => (cards ++ [card], none)) [] r.stream
      = (cs, cs, none) := by
    rw [hstream]
    have h1 := runCB_of_never_fails
      (fun (cards : List Card) card => (cards ++ [card], none)) (fun _ _ => rfl) [] cs
    rw [foldl_snoc_eq] at h1
    exact processBulk_wf _ [] cs vs cs cs hdec (by simpa using h1)
  refine ⟨?_, decodeAll_length hdec, ?_⟩
  · simp only [DownloadBulkData, DownloadBulkDataStream, if_neg huri]
    rw [if_neg (by omega : ¬ 400 ≤ r.status)]
    simp [happ]
  · simp only [DownloadBulkDataStream, if_neg huri]
    rw [if_neg (by omega : ¬ 400 ≤ r.status)]
    simp [hwf]

/-- C5 witness: a two-record stream materializes to the two decoded records
with no error, and the stream mode with a unit callback delivers the same
two records. -/
theorem materialize_equals_stream_witness :
    DownloadBulkData "https://bulk" (.resp ⟨200, 5, [5],
        ⟨.arrayOpen :: (toTokensList [JValue.null, JValue.null] ++ [.arrayClose]), none⟩⟩)
      = ([card0, card0], none)
    ∧ ([card0, card0] : List Card).length = ([JValue.null, JValue.null] : List JValue).length
    ∧ (DownloadBulkDataStream "https://bulk" (.resp ⟨200, 5, [5],
        ⟨.arrayOpen :: (toTokensList [JValue.null, JValue.null] ++ [.arrayClose]), none⟩⟩)
        (fun (_ : Unit) _ => ((), none)) () true).cards = [card0, card0] :=
  materialize_equals_stream "https://bulk" _ ⟨200, 5, [5],
      ⟨.arrayOpen :: (toTokensList [JValue.null, JValue.null] ++ [.arrayClose]), none⟩⟩
    [JValue.null, JValue.null] [card0, card0] (fun (_ : Unit) _ => ((), none)) () true
    (by decide) rfl (by decide) rfl (by rfl) (fun _ _ => rfl)

/-- C6: every operation with a required id, type tag, or download location
rejects the empty string with the corresponding InvalidArgument error
before waiting on the rate limiter and before any network interaction: the
result is a constant independent of the transport oracle, and for the
gated endpoint operations the call log records no limiter wait and no
network call. -/
theorem empty_argument_rejected {σ : Type} (tr1 tr2 : GetTransport)
    (tr3 tr4 tr5 : Transport) (filePath : String)
    (cb : σ → Card → σ × Option GoError) (s0 : σ) (hp hp2 : Bool)
    (createErr copyErr : Option GoError) :
    GetCardByID "" tr1 = (.error (.errorf "card id is required" none), ⟨false, false⟩)
    ∧ GetBulkDataByType "" tr2 = (.error (.errorf "bulk type is required" none), ⟨false, false⟩)
    ∧ DownloadBulkDataStream "" tr3 cb s0 hp
      = ⟨s0, [], [], some (.errorf "download URI is required" none)⟩
    ∧ DownloadToFile "" filePath tr4 createErr copyErr hp2
      = ([], some (.errorf "download URI is required" none))
    ∧ DownloadBulkData "" tr5 = ([], some (.errorf "download URI is required" none)) :=
  ⟨rfl, rfl, rfl, rfl, rfl⟩

/-- C7: for every endpoint GET whose response status is at least 400, the
operation fails with the body decoded as an `APIError` carrying the
response status; and if the error body itself cannot be decoded, the
failure wraps the decode error together with the status code. -/
theorem api_error_status {α : Type} (r : EndpointResponse)
    (dj : JValue → Except GoError α) (hst : 400 ≤ r.status) :
    (∀ a, decodeAPIError r.body = .ok a →
      get (.resp r) dj = (.error (.api { a with StatusCode := r.status }), ⟨true, true⟩))
    ∧ (∀ e, decodeAPIError r.body = .error e →
      get (.resp r) dj
        = (.error (.errorf ("scryfall error status " ++ toString r.status) (some e)),
           ⟨true, true⟩)) := by
  constructor
  · intro a ha
    simp only [get, if_pos hst, ha]
  · intro e he
    simp only [get, if_pos hst, he]

/-- C7 witness: status 429 with body having details "slow down" and type
"rate_limited" yields an `APIError` with status 429 whose rendered message
contains "slow down"; status 500 with a malformed error body yields the
wrap of the decode failure with the status. -/
theorem api_error_status_witness :
    get (.resp ⟨429, .json (.obj [("details", .str "slow down"), ("type", .str "rate_limited")])⟩)
        cardOfJValue
      = (.error (.api ⟨429, "slow down", "rate_limited", []⟩), ⟨true, true⟩)
    ∧ errMsg (.api ⟨429, "slow down", "rate_limited", []⟩)
      = "scryfall api error (429): " ++ "slow down"
    ∧ get (.resp ⟨500, .malformed "invalid json"⟩) cardOfJValue
      = (.error (.errorf ("scryfall error status " ++ toString (500 : Nat))
          (some (.synErr "invalid json"))), ⟨true, true⟩) := by
  refine ⟨?_, by rfl, ?_⟩
  · exact (api_error_status
      ⟨429, .json (.obj [("details", .str "slow down"), ("type", .str "rate_limited")])⟩
      cardOfJValue (by decide)).1 ⟨0, "slow down", "rate_limited", []⟩ (by rfl)
  · exact (api_error_status ⟨500, .malformed "invalid json"⟩ cardOfJValue (by decide)).2
      (.synErr "invalid json") (by rfl)

/-- C8: for every bulk-download request with a non-empty location whose
response status is at least 400, both `DownloadBulkDataStream` and
`DownloadToFile` fail with the download-failed error naming that status,
with zero record-callback invocations and zero progress-callback
invocations. -/
theorem download_error_status {σ : Type} (downloadURI filePath : String)
    (tr : Transport) (r : BulkResponse) (cb : σ → Card → σ × Option GoError)
    (s0 : σ) (hp hp2 : Bool) (createErr copyErr : Option GoError)
    (huri : downloadURI ≠ "") (htr : tr = .resp r) (hst : 400 ≤ r.status) :
    DownloadBulkDataStream downloadURI tr cb s0 hp
      = ⟨s0, [], [], some (.errorf ("download failed with status " ++ toString r.status) none)⟩
    ∧ DownloadToFile downloadURI filePath tr createErr copyErr hp2
      = ([], some (.errorf ("download failed with status " ++ toString r.status) none)) := by
  subst htr
  constructor
  · simp only [DownloadBulkDataStream, if_neg huri]
    rw [if_pos hst]
  · simp only [DownloadToFile, if_neg huri]
    rw [if_pos hst]

/-- C8 witness: a 404 response with empty body to both download operations
yields the error naming status 404, an empty record trace and an empty
progress trace, even with a progress callback supplied. -/
theorem download_error_status_witness :
    DownloadBulkDataStream "https://bulk" (.resp ⟨404, 0, [], ⟨[], none⟩⟩)
        (fun (_ : Unit) _ => ((), none)) () true
      = ⟨(), [], [], some (.errorf ("download failed with status " ++ toString (404 : Nat)) none)⟩
    ∧ DownloadToFile "https://bulk" "cards.json" (.resp ⟨404, 0, [], ⟨[], none⟩⟩) none none true
      = ([], some (.errorf ("download failed with status " ++ toString (404 : Nat)) none))
    ∧ errMsg (.errorf ("download failed with status " ++ toString (404 : Nat)) none)
      = "download failed with status " ++ "404" := by
  obtain ⟨h1, h2⟩ := download_error_status "https://bulk" "cards.json"
    (.resp ⟨404, 0, [], ⟨[], none⟩⟩) ⟨404, 0, [], ⟨[], none⟩⟩
    (fun (_ : Unit) _ => ((), none)) () true true none none
    (by decide) rfl (by decide)
  exact ⟨h1, h2, by rfl⟩

/-- C10: if the stream behind `DownloadBulkData` fails after its k leading
valid records (a structurally invalid value — equally, a mid-stream
transport failure surfacing as a decoder error — at a position where more
input is reported), the call returns the k records accumulated so far
together with the non-nil error: partial results are not discarded. -/
theorem materialize_partial_results (downloadURI : String) (tr : Transport)
    (r : BulkResponse) (vs : List JValue) (cs : List Card)
    (tail : List JToken) (bad : Option GoError) (e : GoError)
    (huri : downloadURI ≠ "") (htr : tr = .resp r) (hst : r.status < 400)
    (hstream : r.stream = ⟨.arrayOpen :: (toTokensList vs ++ tail), bad⟩)
    (hdec : decodeAll vs = .ok cs)
    (hmore : DecState.more ⟨tail, bad⟩ = true)
    (hfail : decodeCard ⟨tail, bad⟩ = .error e) :
    DownloadBulkData downloadURI tr
      = (cs, some (.errorf "decode card object" (some e)))
    ∧ cs.length = vs.length := by
  subst htr
  have happ : ProcessBulkDataStream
      (fun (cards : List Card) card => (cards ++ [card], none)) [] r.stream
      = (cs, cs, some (.errorf "decode card object" (some e))) := by
    rw [hstream]
    have h1 := runCB_of_never_fails
      (fun (cards : List Card) card => (cards ++ [card], none)) (fun _ _ => rfl) [] cs
    rw [foldl_snoc_eq] at h1
    exact processBulk_badtail _ [] cs vs cs cs tail bad e hdec (by simpa using h1) hmore hfail
  refine ⟨?_, decodeAll_length hdec⟩
  simp only [DownloadBulkData, DownloadBulkDataStream, if_neg huri]
  rw [if_neg (by omega : ¬ 400 ≤ r.status)]
  simp [happ]

/-- C10 witness: one valid record followed by a bare number where a record
object is expected: the one accumulated record is returned alongside the
decode-failure error. -/
theorem materialize_partial_results_witness :
    DownloadBulkData "https://bulk" (.resp ⟨200, 5, [5],
        ⟨.arrayOpen :: (toTokensList [JValue.null] ++ [.num 5]), none⟩⟩)
      = ([card0], some (.errorf "decode card object"
          (some (.typeErr "cannot unmarshal value into Card"))))
    ∧ ([card0] : List Card).length = ([JValue.null] : List JValue).length :=
  materialize_partial_results "https://bulk" _
    ⟨200, 5, [5], ⟨.arrayOpen :: (toTokensList [JValue.null] ++ [.num 5]), none⟩⟩
    [JValue.null] [card0] [.num 5] none
    (.typeErr "cannot unmarshal value into Card")
    (by decide) rfl (by decide) rfl (by rfl) (by rfl) (by rfl)

end Scryfall
